import Mathlib

/-!
Verification of the Monopoly-OS turn coordinator, scheduler and log pipeline.

The development shallowly embeds the two turn-management implementations of
the repository:

* the game-state path (`src/game_state.c` `advance_turn`, driven by
  `src/server.c` `handle_client` / `main`), modelled as pure functions on a
  `GameState` record plus a step relation `GStep` for the operations the
  server performs (accept/connect, disconnect on read failure, the act
  sequence, and the bankrupt-skip advance);
* the scheduler module (`src/scheduler.c`), modelled on a `SchedulerState`
  record (`find_next_active_player`, `update_turn_signals`,
  `scheduler_advance_turn`, `scheduler_player_connect`,
  `scheduler_player_disconnect`, `scheduler_is_my_turn`, and the round
  bookkeeping of `scheduler_thread_main`, modelled as `scheduler_tick`);
* the log pipeline (`src/logger.c`), modelled as a bounded FIFO queue with a
  single consumer.

C `int` fields are modelled as `Int` where they carry arithmetic (money,
counters that are decremented) and as `Nat` where the code keeps them
non-negative (indices reduced modulo `num_players`, round numbers that are
only incremented).  C for-loops over arrays become structural recursions over
`List`s carrying the running index.
-/

/- ===================== Scheduler module (src/scheduler.c) ===================== -/

/-- Player slot of the scheduler module (`Player` in `src/scheduler.h`).
The `client_thread` handle is omitted: no modelled operation reads it. -/
structure SPlayer where
  player_id : Int
  is_connected : Bool
  is_active : Bool
  turn_count : Int
deriving DecidableEq, Repr

/-- Scheduler shared-memory state (`SchedulerState` in `src/scheduler.h`).
`num_players` is the length of `players`; `turn_signal` holds the values of
the per-player POSIX semaphores (only the first `num_players` entries of the
C array are ever touched, so the list has that length). -/
structure SchedulerState where
  players : List SPlayer
  active_player_count : Int
  current_player_idx : Nat
  round_number : Int
  total_moves : Int
  turn_signal : List Nat
  game_in_progress : Bool
deriving DecidableEq, Repr

/-- Number of players of a scheduler state. -/
def SchedulerState.num_players (s : SchedulerState) : Nat := s.players.length

/-- Reads `players[i].is_connected && players[i].is_active`; out-of-range
indices (never produced by the C code, which reduces indices modulo
`num_players`) read as `false`. -/
def connActAt (ps : List SPlayer) (i : Nat) : Bool :=
  match ps.get? i with
  | some p => p.is_connected && p.is_active
  | none => false

/-- Reads `players[i].is_connected`, defaulting to `false` out of range. -/
def connectedAt (ps : List SPlayer) (i : Nat) : Bool :=
  match ps.get? i with
  | some p => p.is_connected
  | none => false

/-- Loop of `find_next_active_player` (src/scheduler.c:46-53): starting at
`idx`, try at most `fuel` slots, returning the first with
`is_connected && is_active`, stepping by `(idx + 1) % num_players`. -/
def findNextLoop (ps : List SPlayer) : Nat → Nat → Option Nat
  | _, 0 => none
  | idx, fuel + 1 =>
    if connActAt ps idx then some idx
    else findNextLoop ps ((idx + 1) % ps.length) fuel

/-- Source: `find_next_active_player` (src/scheduler.c:36-56).  Scans forward
from `(current_player_idx + 1) % num_players` for at most `num_players`
attempts; `none` models the C return value `-1`. -/
def find_next_active_player (s : SchedulerState) : Option Nat :=
  if s.players.length = 0 then none
  else findNextLoop s.players ((s.current_player_idx + 1) % s.players.length) s.players.length

/-- Source: `update_turn_signals` (src/scheduler.c:62-91).  For slot `i`
(the recursion carries the running index, starting at 0): if `i` is the
current player and the semaphore value is 0, post it (value 1), otherwise
leave it; for every other slot drain the semaphore to 0. -/
def update_turn_signals (cur : Nat) : Nat → List Nat → List Nat
  | _, [] => []
  | i, v :: rest =>
    (if i = cur then (if v = 0 then 1 else v) else 0) :: update_turn_signals cur (i + 1) rest

/-- Source: `scheduler_advance_turn` (src/scheduler.c:323-358).  On `none`
from `find_next_active_player` it returns `-1` (modelled `none`) and leaves
the state untouched; otherwise it installs the new index, increments
`total_moves`, and refreshes the turn signals.  It does not touch
`round_number`. -/
def scheduler_advance_turn (s : SchedulerState) : Option Nat × SchedulerState :=
  match find_next_active_player s with
  | none => (none, s)
  | some nxt =>
    (some nxt,
      { s with current_player_idx := nxt,
               total_moves := s.total_moves + 1,
               turn_signal := update_turn_signals nxt 0 s.turn_signal })

/-- Generic in-place update of one list cell, mirroring a C assignment
`a[i] = f(a[i])`; out-of-range indices leave the list unchanged. -/
def modifyAt (f : α → α) : Nat → List α → List α
  | _, [] => []
  | 0, x :: xs => f x :: xs
  | n + 1, x :: xs => x :: modifyAt f n xs

/-- Source: `scheduler_player_connect` (src/scheduler.c:200-232).  Returns
the C result code together with the new state: `-1` on a bad id, `0` and no
change when already connected, otherwise marks the slot connected and
active and increments `active_player_count`. -/
def scheduler_player_connect (s : SchedulerState) (player_id : Int) : Int × SchedulerState :=
  if player_id < 0 ∨ (s.players.length : Int) ≤ player_id then (-1, s)
  else if connectedAt s.players player_id.toNat then (0, s)
  else
    (0, { s with
            players := modifyAt (fun p => { p with is_connected := true, is_active := true })
                         player_id.toNat s.players,
            active_player_count := s.active_player_count + 1 })

/-- Source: `scheduler_player_disconnect` (src/scheduler.c:234-274).  Marks
the slot disconnected and inactive and decrements `active_player_count`;
if the disconnecting player was current, advances to the next connected,
active slot (when one exists) and refreshes the turn signals. -/
def scheduler_player_disconnect (s : SchedulerState) (player_id : Int) : Int × SchedulerState :=
  if player_id < 0 ∨ (s.players.length : Int) ≤ player_id then (-1, s)
  else if ¬ connectedAt s.players player_id.toNat then (0, s)
  else
    let s1 := { s with
                  players := modifyAt (fun p => { p with is_connected := false, is_active := false })
                               player_id.toNat s.players,
                  active_player_count := s.active_player_count - 1 }
    if (s1.current_player_idx : Int) = player_id then
      match find_next_active_player s1 with
      | some nxt =>
        (0, { s1 with current_player_idx := nxt,
                      turn_signal := update_turn_signals nxt 0 s1.turn_signal })
      | none => (0, s1)
    else (0, s1)

/-- Source: `scheduler_is_my_turn` (src/scheduler.c:285-300).  `none` models
`scheduler_state == NULL` (scheduler uninitialized).  Returns `-1` on an
uninitialized scheduler or an out-of-range id, `1` when the id is current
and the slot is connected, and `0` otherwise.  The function reads the state
and never writes it. -/
def scheduler_is_my_turn (os : Option SchedulerState) (player_id : Int) : Int :=
  match os with
  | none => -1
  | some s =>
    if player_id < 0 ∨ (s.players.length : Int) ≤ player_id then -1
    else if (s.current_player_idx : Int) = player_id ∧ connectedAt s.players player_id.toNat then 1
    else 0

/-- Source: turn-advancing body of `scheduler_thread_main`
(src/scheduler.c:473-494).  When a game is in progress and players are
active, advance to the next connected, active slot, increment
`total_moves`, increment `round_number` exactly when the new index is 0,
and refresh the turn signals. -/
def scheduler_tick (s : SchedulerState) : SchedulerState :=
  if s.game_in_progress ∧ 0 < s.active_player_count then
    match find_next_active_player s with
    | some nxt =>
      { s with current_player_idx := nxt,
               total_moves := s.total_moves + 1,
               round_number := if nxt = 0 then s.round_number + 1 else s.round_number,
               turn_signal := update_turn_signals nxt 0 s.turn_signal }
    | none => s
  else s

/- ===================== Game state (src/game_state.c, src/server.c) ===================== -/

/-- Game status (`GameStatus` in `src/game_state.h`). -/
inductive GameStatus
  | WAITING
  | PLAYING
  | GAME_OVER
deriving DecidableEq, Repr

/-- Player slot of the game state (`Player` in `src/game_state.h`).  The C
`int` flags `is_active` / `is_bankrupt` only ever hold 0 or 1 and are
modelled as `Bool`.  In this structure there is no separate connected flag:
`src/server.c` sets `is_active = 1` when a client is accepted (line 351) and
clears it when the client socket dies (line 126), so `is_active` is the
game state's record of a connected, live session. -/
structure GPlayer where
  id : Int
  position : Int
  money : Int
  is_active : Bool
  is_bankrupt : Bool
deriving DecidableEq, Repr

/-- Persistent score cell (`PlayerScore` in `src/game_state.h`, minus the
display name, which no modelled operation reads). -/
structure Score where
  wins : Int
  games_played : Int
deriving DecidableEq, Repr

/-- Game shared-memory state (`GameState` in `src/game_state.h`).
`num_players` is the length of `players` (the server only ever grows the
array by one while holding the lock, so the two agree); `scores` models the
fixed `scores[MAX_PLAYERS]` array and always has length 5. -/
structure GameState where
  game_state : GameStatus
  active_player_count : Int
  current_turn : Nat
  round : Nat
  players : List GPlayer
  scores : List Score
  total_games : Int
deriving DecidableEq, Repr

/-- Reads `players[i].is_bankrupt`, defaulting to `false` out of range (the
C code only indexes with values reduced modulo `num_players`). -/
def bankruptAt (ps : List GPlayer) (i : Nat) : Bool :=
  match ps.get? i with
  | some p => p.is_bankrupt
  | none => false

/-- Reads `players[i].is_active`, defaulting to `false` out of range. -/
def activeAt (ps : List GPlayer) (i : Nat) : Bool :=
  match ps.get? i with
  | some p => p.is_active
  | none => false

/-- Reads `players[i].money`, defaulting to 0 out of range. -/
def moneyAt (ps : List GPlayer) (i : Nat) : Int :=
  match ps.get? i with
  | some p => p.money
  | none => 0

/-- Do-while loop of `advance_turn` (src/game_state.c:178-183): step to
`(current + 1) % num_players` and repeat while the new slot is bankrupt and
fewer than `MAX_PLAYERS` (= 5) attempts were made.  `fuel` counts the
remaining permitted iterations, so the initial call passes 5; the guard
`fuel ≠ 0` is the C test `attempts < MAX_PLAYERS` evaluated after the
attempt counter was incremented. -/
def advanceScan (ps : List GPlayer) : Nat → Nat → Nat
  | cur, 0 => cur
  | cur, fuel + 1 =>
    let nxt := (cur + 1) % ps.length
    if bankruptAt ps nxt ∧ fuel ≠ 0 then advanceScan ps nxt fuel else nxt

/-- Solvent-player count of `advance_turn` (src/game_state.c:191-198): the
number of indices `i < num_players` with `!players[i].is_bankrupt`. -/
def solventCount (ps : List GPlayer) : Nat :=
  ((List.range ps.length).filter (fun i => !(bankruptAt ps i))).length

/-- The `last_solvent` scan of `advance_turn` (src/game_state.c:192-198):
`-1` unless some slot is non-bankrupt, in which case the greatest such
index. -/
def lastSolvent (ps : List GPlayer) : Int :=
  (List.range ps.length).foldl (fun acc i => if bankruptAt ps i then acc else (i : Int)) (-1)

/-- The richest-player scan of `advance_turn` (src/game_state.c:215-222):
`richest` starts at 0 with `max_money = players[0].money`, and a later
index replaces it only when strictly richer, so ties keep the lowest
index.  The source spells the array `shm->players` here, an identifier
that is not in scope in `game_state.c`; at the only live call sites
(`handle_client`, src/server.c) `shm` denotes the same mapped `GameState`
as `state`, so the scan is read over the state's own players. -/
def richestLoop (ps : List GPlayer) : Nat → Nat → Int → Nat
  | i, richest, maxm =>
    if h : i < ps.length then
      if maxm < moneyAt ps i then richestLoop ps (i + 1) i (moneyAt ps i)
      else richestLoop ps (i + 1) richest maxm
    else richest
termination_by i _ _ => ps.length - i

/-- Entry of the richest-player scan: index from 1, candidate 0. -/
def richestIdx (ps : List GPlayer) : Nat :=
  richestLoop ps 1 0 (moneyAt ps 0)

/-- Score updates of the game-over block of `advance_turn`
(src/game_state.c:204-210 and 223-229): `scores[winner].wins++` and
`scores[i].games_played++` for every `i < num_players` (index carried by
the recursion, starting at 0).  In the source both updates run under
`score_mutex`. -/
def bumpScores (winner n : Nat) : Nat → List Score → List Score
  | _, [] => []
  | i, sc :: rest =>
    { wins := sc.wins + (if i = winner then 1 else 0),
      games_played := sc.games_played + (if i < n then 1 else 0) } :: bumpScores winner n (i + 1) rest

/-- Source: `advance_turn` (src/game_state.c:177-234).  Advances
`current_turn` past bankrupt slots (at most 5 attempts), increments `round`
exactly when the new index is 0, then recomputes the solvent count:
if exactly one solvent player remains (`last_solvent >= 0`), or `round`
reached 50, the game ends and the winner's `wins`, everyone's
`games_played` and `total_games` are persisted — the sole solvent player
in the first case, the richest slot (ties to the lowest index) at the
round cap.  The function checks no status and has no failure path. -/
def advance_turn (s : GameState) : GameState :=
  let n := s.players.length
  let cur' := advanceScan s.players s.current_turn 5
  let round' := if cur' = 0 then s.round + 1 else s.round
  let solvent := solventCount s.players
  let last := lastSolvent s.players
  let base : GameState := { s with current_turn := cur', round := round' }
  if (solvent = 1 ∧ 0 ≤ last) ∨ 50 ≤ round' then
    if solvent = 1 ∧ 0 ≤ last then
      { base with game_state := GameStatus.GAME_OVER,
                  scores := bumpScores last.toNat n 0 base.scores,
                  total_games := base.total_games + 1 }
    else
      { base with game_state := GameStatus.GAME_OVER,
                  scores := bumpScores (richestIdx s.players) n 0 base.scores,
                  total_games := base.total_games + 1 }
  else base

/-- Initial game state (`init_game_state_memory`, src/game_state.c:53-70):
status WAITING, no players, zeroed counters and scores.  (`load_scores`
may later overwrite `scores` and `total_games` from disk; no claim depends
on their startup values.) -/
def initGameState : GameState :=
  { game_state := GameStatus.WAITING,
    active_player_count := 0,
    current_turn := 0,
    round := 0,
    players := [],
    scores := List.replicate 5 { wins := 0, games_played := 0 },
    total_games := 0 }

/-- Accept path of the server loop (src/server.c:321-368): append a fresh
player with START_MONEY = 500, active and solvent, increment
`active_player_count`, and start the game (status PLAYING, `current_turn`
and `round` reset to 0) once at least MIN_CLIENTS = 3 players joined while
WAITING.  The caller checks `num_players < MAX_CLIENTS` and
`game_state != GAME_OVER` before this runs. -/
def connectOp (s : GameState) : GameState :=
  let p : GPlayer :=
    { id := (s.players.length : Int), position := 0, money := 500,
      is_active := true, is_bankrupt := false }
  let s1 := { s with players := s.players ++ [p],
                     active_player_count := s.active_player_count + 1 }
  if 3 ≤ s1.players.length ∧ s1.game_state = GameStatus.WAITING then
    { s1 with game_state := GameStatus.PLAYING, current_turn := 0, round := 0 }
  else s1

/-- Read-failure path of `handle_client` (src/server.c:123-130): the slot is
marked inactive and `active_player_count` is decremented; the handler then
exits without advancing the turn. -/
def disconnectOp (s : GameState) (i : Nat) : GameState :=
  { s with players := modifyAt (fun p => { p with is_active := false }) i s.players,
           active_player_count := s.active_player_count - 1 }

/-- Act path of `handle_client` (src/server.c:132-235).  The dice roll and
board resolution (src/server.c:140-206) are the externally supplied
mutation: every branch rewrites only the acting player's `position` and
`money` (modelled by the arbitrary values `pos'`, `money'`) and, in the
rent branch, credits `rent` to one other slot `payee`.  Afterwards the
bankruptcy check (src/server.c:209-214) sets `is_bankrupt` and decrements
`active_player_count` when the acting player's money went negative, and
`advance_turn` runs (src/server.c:233). -/
def actOp (s : GameState) (i : Nat) (pos' money' : Int) (payee : Option Nat) (rent : Int) :
    GameState :=
  let ps1 := modifyAt (fun p : GPlayer => { p with position := pos', money := money' }) i s.players
  let ps2 := match payee with
    | some j => modifyAt (fun p : GPlayer => { p with money := p.money + rent }) j ps1
    | none => ps1
  let s1 :=
    if moneyAt ps2 i < 0 then
      { s with players := modifyAt (fun p => { p with is_bankrupt := true }) i ps2,
               active_player_count := s.active_player_count - 1 }
    else { s with players := ps2 }
  advance_turn s1

/-- Guard on the optional rent credit of `actOp`: the rent branch of
src/server.c:194-202 pays a valid owner other than the acting player a
non-negative rent. -/
def payeeOk (s : GameState) (i : Nat) (payee : Option Nat) (rent : Int) : Prop :=
  match payee with
  | some j => j < s.players.length ∧ j ≠ i ∧ 0 ≤ rent
  | none => True

instance (s : GameState) (i : Nat) (payee : Option Nat) (rent : Int) :
    Decidable (payeeOk s i payee rent) := by
  unfold payeeOk
  cases payee <;> infer_instance

/-- Operations the server performs on the shared game state, with the
guards under which each code path runs.

* `connect`: the accept loop admits a client only while the table is not
  full and the game is not over (src/server.c:331-343).
* `disconnect`: the read-failure path is reached only by the handler of the
  current player (the wait loop at src/server.c:91-94 exits with
  `game_state == PLAYING && current_turn == player_id`), whose slot is
  still active (its own handler is the only writer of its `is_active`, and
  clearing it ends the session) and not bankrupt (a bankrupt current player
  is diverted at src/server.c:103 before the read).
* `act`: same reachability, plus the roll branch itself requires
  `!is_bankrupt` (src/server.c:140).
* `skipBankrupt`: the diversion at src/server.c:103-108 — a bankrupt current
  player's handler just advances the turn. -/
inductive GStep : GameState → GameState → Prop
  | connect (s : GameState) :
      s.players.length < 5 →
      s.game_state ≠ GameStatus.GAME_OVER →
      GStep s (connectOp s)
  | disconnect (s : GameState) (i : Nat) :
      i < s.players.length →
      s.game_state = GameStatus.PLAYING →
      s.current_turn = i →
      activeAt s.players i = true →
      bankruptAt s.players i = false →
      GStep s (disconnectOp s i)
  | act (s : GameState) (i : Nat) (pos' money' : Int) (payee : Option Nat) (rent : Int) :
      i < s.players.length →
      s.game_state = GameStatus.PLAYING →
      s.current_turn = i →
      activeAt s.players i = true →
      bankruptAt s.players i = false →
      payeeOk s i payee rent →
      GStep s (actOp s i pos' money' payee rent)
  | skipBankrupt (s : GameState) :
      s.game_state = GameStatus.PLAYING →
      bankruptAt s.players s.current_turn = true →
      GStep s (advance_turn s)

/-- States reachable from the freshly initialized game state by server
operations. -/
def GReachable (s : GameState) : Prop :=
  Relation.ReflTransGen GStep initGameState s

/-- Count of slots that are connected and active: in the game state both
notions are recorded by `is_active` (set on accept, cleared when the
session dies), see `GPlayer`. -/
def connectedActiveCount (ps : List GPlayer) : Nat :=
  (ps.filter (fun p => p.is_active)).length

/-- Count of slots that are active and not bankrupt. -/
def activeSolventCount (ps : List GPlayer) : Nat :=
  (ps.filter (fun p => p.is_active && !p.is_bankrupt)).length

/- ===================== Log pipeline (src/logger.c) ===================== -/

/-- Capacity of the POSIX message queue (`LOG_MAX_MSGS`, src/logger.c:25). -/
def LOG_MAX_MSGS : Nat := 10

/-- A formatted log line, modelled as its byte sequence. -/
def LogLine : Type := List Nat

instance : DecidableEq LogLine := by
  unfold LogLine
  infer_instance

/-- Formatting in `logger_log` (src/logger.c:201-202): `snprintf` into a
1024-byte buffer keeps at most 1023 bytes of the line (plus the
terminator), so every message handed to the queue fits a 1024-byte slot. -/
def logger_format (msg : LogLine) : LogLine := msg.take 1023

/-- State of the log pipeline: the pending queue (the POSIX message queue,
FIFO, at most `LOG_MAX_MSGS` entries) and the lines already appended to the
log file by the consumer thread. -/
structure LoggerState where
  queue : List LogLine
  file : List LogLine
deriving DecidableEq

/-- Source: `logger_log` (src/logger.c:186-208).  The non-blocking
`mq_send` succeeds exactly when the queue holds fewer than `LOG_MAX_MSGS`
messages; on a full queue the call fails and the error is deliberately
ignored, so the message is dropped and nothing is reported to the caller.
The call returns in every case (the descriptor is `O_NONBLOCK`). -/
def logger_log (s : LoggerState) (msg : LogLine) : LoggerState :=
  if s.queue.length < LOG_MAX_MSGS then { s with queue := s.queue ++ [logger_format msg] }
  else s

/-- One step of the consumer thread (`logger_thread_main`,
src/logger.c:66-90): receive the oldest queued message and append it to the
file. -/
def logger_drain1 (s : LoggerState) : LoggerState :=
  match s.queue with
  | [] => s
  | m :: rest => { queue := rest, file := s.file ++ [m] }

/-- An event of the log pipeline: a producer enqueues a line, or the
consumer drains one. -/
inductive LogOp
  | enq (msg : LogLine)
  | drain

/-- Apply one pipeline event. -/
def logger_step (s : LoggerState) : LogOp → LoggerState
  | LogOp.enq m => logger_log s m
  | LogOp.drain => logger_drain1 s

/-- Run a sequence of pipeline events. -/
def logger_run (s : LoggerState) : List LogOp → LoggerState
  | [] => s
  | op :: ops => logger_run (logger_step s op) ops

/-- The lines a run accepts into the queue (those whose enqueue found a
non-full queue), in submission order. -/
def logger_accepted (s : LoggerState) : List LogOp → List LogLine
  | [] => []
  | LogOp.enq m :: ops =>
    (if s.queue.length < LOG_MAX_MSGS then [logger_format m] else []) ++
      logger_accepted (logger_step s (LogOp.enq m)) ops
  | LogOp.drain :: ops => logger_accepted (logger_drain1 s) ops

/-- The empty pipeline, as set up by `logger_init` (src/logger.c:92-156). -/
def initLogger : LoggerState := { queue := [], file := [] }

/- ===================== Concrete states used in theorems ===================== -/

/-- One accepted client on a fresh server. -/
def cSt1 : GameState := connectOp initGameState

/-- Two accepted clients. -/
def cSt2 : GameState := connectOp cSt1

/-- Three accepted clients; the third accept starts the game (status
PLAYING, current player 0). -/
def cSt3 : GameState := connectOp cSt2

/-- Player 0 acts and the mutation leaves it with negative money, so the
bankruptcy check fires and the turn advances to player 1. -/
def gBadC7 : GameState := actOp cSt3 0 10 (-10) none 0

/-- Player 1 then acts and also goes bankrupt, leaving player 2 the sole
solvent player: the game-over block of `advance_turn` fires. -/
def gOverC3 : GameState := actOp gBadC7 1 5 (-1) none 0

/-- A PLAYING state whose slot 1 is disconnected (inactive) but not
bankrupt, while slot 2 is active and solvent. -/
def cexC1 : GameState :=
  { game_state := GameStatus.PLAYING,
    active_player_count := 2,
    current_turn := 0,
    round := 0,
    players :=
      [ { id := 0, position := 0, money := 500, is_active := true, is_bankrupt := false },
        { id := 1, position := 0, money := 500, is_active := false, is_bankrupt := false },
        { id := 2, position := 0, money := 500, is_active := true, is_bankrupt := false } ],
    scores := List.replicate 5 { wins := 0, games_played := 0 },
    total_games := 0 }

/-- A PLAYING state with current player 2 whose slot 0 is bankrupt, so the
next advance wraps to index 1 (≤ previous index, and nonzero). -/
def cexC5 : GameState :=
  { game_state := GameStatus.PLAYING,
    active_player_count := 2,
    current_turn := 2,
    round := 0,
    players :=
      [ { id := 0, position := 0, money := -10, is_active := true, is_bankrupt := true },
        { id := 1, position := 0, money := 500, is_active := true, is_bankrupt := false },
        { id := 2, position := 0, money := 500, is_active := true, is_bankrupt := false } ],
    scores := List.replicate 5 { wins := 0, games_played := 0 },
    total_games := 0 }

/-- A PLAYING game state in which no slot is eligible for a turn: every
slot is disconnected (inactive) and none is bankrupt. -/
def cexC2 : GameState :=
  { game_state := GameStatus.PLAYING,
    active_player_count := 0,
    current_turn := 0,
    round := 0,
    players :=
      [ { id := 0, position := 0, money := 500, is_active := false, is_bankrupt := false },
        { id := 1, position := 0, money := 500, is_active := false, is_bankrupt := false },
        { id := 2, position := 0, money := 500, is_active := false, is_bankrupt := false } ],
    scores := List.replicate 5 { wins := 0, games_played := 0 },
    total_games := 0 }

/-- A scheduler state in which no slot is connected (hence none is
connected and active). -/
def sW2 : SchedulerState :=
  { players :=
      [ { player_id := 0, is_connected := false, is_active := false, turn_count := 0 },
        { player_id := 1, is_connected := false, is_active := false, turn_count := 0 },
        { player_id := 2, is_connected := false, is_active := false, turn_count := 0 } ],
    active_player_count := 0,
    current_player_idx := 0,
    round_number := 0,
    total_moves := 0,
    turn_signal := [0, 0, 0],
    game_in_progress := true }

/-- A scheduler state with three connected, active slots, player 0 current
and holding the only raised signal. -/
def sW6 : SchedulerState :=
  { players :=
      [ { player_id := 0, is_connected := true, is_active := true, turn_count := 0 },
        { player_id := 1, is_connected := true, is_active := true, turn_count := 0 },
        { player_id := 2, is_connected := true, is_active := true, turn_count := 0 } ],
    active_player_count := 3,
    current_player_idx := 0,
    round_number := 0,
    total_moves := 0,
    turn_signal := [1, 0, 0],
    game_in_progress := true }

/-- Copy of `sW6` with a different move counter, used for the round/move
bookkeeping witness. -/
def sW5 : SchedulerState := { sW6 with total_moves := 7, round_number := 3 }

/-- A PLAYING state in which player 2 is the sole solvent player. -/
def sW4 : GameState :=
  { game_state := GameStatus.PLAYING,
    active_player_count := 1,
    current_turn := 1,
    round := 4,
    players :=
      [ { id := 0, position := 3, money := -10, is_active := true, is_bankrupt := true },
        { id := 1, position := 5, money := -1, is_active := true, is_bankrupt := true },
        { id := 2, position := 0, money := 700, is_active := true, is_bankrupt := false } ],
    scores := List.replicate 5 { wins := 0, games_played := 0 },
    total_games := 0 }

/-- A logger whose queue is full (10 pending lines). -/
def s10full : LoggerState :=
  { queue := List.replicate 10 [], file := [] }

/-- Enqueue events for eleven one-byte lines followed by a full drain. -/
def opsC8 : List LogOp :=
  (List.range 11).map (fun i => LogOp.enq [i]) ++ List.replicate 11 LogOp.drain

/-- Reads `scores[i].wins`, defaulting to 0 out of range. -/
def winsAt (l : List Score) (i : Nat) : Int :=
  match l.get? i with
  | some sc => sc.wins
  | none => 0

/-- Reads `scores[i].games_played`, defaulting to 0 out of range. -/
def gamesAt (l : List Score) (i : Nat) : Int :=
  match l.get? i with
  | some sc => sc.games_played
  | none => 0

/- ===================== Helper lemmas: list surgery ===================== -/

theorem modifyAt_length (f : α → α) : ∀ (i : Nat) (l : List α),
    (modifyAt f i l).length = l.length
  | i, [] => by cases i <;> rfl
  | 0, _ :: _ => rfl
  | n + 1, _ :: xs => by
      simp only [modifyAt, List.length_cons]
      rw [modifyAt_length f n xs]

theorem modifyAt_get?_self (f : α → α) : ∀ (i : Nat) (l : List α),
    (modifyAt f i l).get? i = (l.get? i).map f
  | i, [] => by cases i <;> rfl
  | 0, _ :: _ => rfl
  | n + 1, x :: xs => by
      simp only [modifyAt, List.get?_cons_succ]
      exact modifyAt_get?_self f n xs

theorem modifyAt_get?_ne (f : α → α) : ∀ (i j : Nat), i ≠ j → ∀ (l : List α),
    (modifyAt f i l).get? j = l.get? j
  | _, _, _, [] => by simp [modifyAt]
  | 0, 0, h, _ :: _ => absurd rfl h
  | 0, _ + 1, _, _ :: _ => by simp [modifyAt]
  | _ + 1, 0, _, _ :: _ => by simp [modifyAt]
  | i + 1, j + 1, h, x :: xs => by
      simp only [modifyAt, List.get?_cons_succ]
      exact modifyAt_get?_ne f i j (fun hh => h (by rw [hh])) xs

theorem get?_some_of_lt {α : Type _} {l : List α} {i : Nat} (h : i < l.length) :
    ∃ x, l.get? i = some x := by
  cases hx : l.get? i with
  | none =>
    have := List.get?_eq_none.mp hx
    omega
  | some x => exact ⟨x, rfl⟩

theorem filter_modifyAt_count (p : α → Bool) (f : α → α) :
    ∀ (i : Nat) (l : List α) (x : α), l.get? i = some x →
      ((modifyAt f i l).filter p).length + (if p x then 1 else 0)
        = (l.filter p).length + (if p (f x) then 1 else 0)
  | 0, y :: ys, x, h => by
      have hx : y = x := by simpa using h
      subst hx
      by_cases hy : p y <;> by_cases hfy : p (f y) <;>
        simp [modifyAt, List.filter_cons, hy, hfy] <;> omega
  | i + 1, y :: ys, x, h => by
      have h' : ys.get? i = some x := by simpa using h
      have ih := filter_modifyAt_count p f i ys x h'
      by_cases hy : p y <;> simp [modifyAt, List.filter_cons, hy] <;> omega

theorem filter_modifyAt_invariant (p : α → Bool) (f : α → α)
    (hf : ∀ x, p (f x) = p x) : ∀ (i : Nat) (l : List α),
      ((modifyAt f i l).filter p).length = (l.filter p).length
  | i, [] => by cases i <;> rfl
  | 0, x :: xs => by by_cases hx : p x <;> simp [modifyAt, List.filter_cons, hf, hx]
  | i + 1, x :: xs => by
      by_cases hx : p x <;>
        simp [modifyAt, List.filter_cons, hx, filter_modifyAt_invariant p f hf i xs]

theorem update_turn_signals_length (cur : Nat) : ∀ (start : Nat) (l : List Nat),
    (update_turn_signals cur start l).length = l.length
  | _, [] => rfl
  | start, _ :: rest => by
      simp [update_turn_signals, update_turn_signals_length cur (start + 1) rest]

theorem update_turn_signals_get? (cur : Nat) : ∀ (start : Nat) (l : List Nat) (i : Nat),
    (update_turn_signals cur start l).get? i
      = (l.get? i).map (fun v => if start + i = cur then (if v = 0 then 1 else v) else 0)
  | _, [], _ => by simp [update_turn_signals]
  | _, _ :: _, 0 => by simp [update_turn_signals]
  | start, v :: rest, i + 1 => by
      have hidx : start + (i + 1) = start + 1 + i := by omega
      simp only [update_turn_signals, List.get?_cons_succ]
      rw [update_turn_signals_get? cur (start + 1) rest i, hidx]

theorem bumpScores_length (w n : Nat) : ∀ (start : Nat) (l : List Score),
    (bumpScores w n start l).length = l.length
  | _, [] => rfl
  | start, _ :: rest => by simp [bumpScores, bumpScores_length w n (start + 1) rest]

theorem bumpScores_get? (w n : Nat) : ∀ (start : Nat) (l : List Score) (i : Nat),
    (bumpScores w n start l).get? i
      = (l.get? i).map (fun sc =>
          { wins := sc.wins + (if start + i = w then 1 else 0),
            games_played := sc.games_played + (if start + i < n then 1 else 0) })
  | _, [], _ => by simp [bumpScores]
  | _, _ :: _, 0 => by simp [bumpScores]
  | start, sc :: rest, i + 1 => by
      have hidx : start + (i + 1) = start + 1 + i := by omega
      simp only [bumpScores, List.get?_cons_succ]
      rw [bumpScores_get? w n (start + 1) rest i, hidx]

/- ===================== Helper lemmas: modular scans ===================== -/

theorem add_mod_mod (a x n : Nat) : (a + x % n) % n = (a + x) % n := by
  rw [Nat.add_comm a (x % n), Nat.mod_add_mod, Nat.add_comm]

theorem exists_offset (n i a : Nat) (hn : 0 < n) (hi : i < n) :
    ∃ k, k < n ∧ (a + k) % n = i := by
  have ha : a % n < n := Nat.mod_lt _ hn
  refine ⟨(i + n - a % n) % n, Nat.mod_lt _ hn, ?_⟩
  rw [add_mod_mod]
  have hd := Nat.div_add_mod a n
  have hmul : n * (a / n + 1) = n * (a / n) + n := by ring
  have h2 : a + (i + n - a % n) = n * (a / n + 1) + i := by omega
  rw [h2, Nat.mul_add_mod, Nat.mod_eq_of_lt hi]

theorem findNextLoop_none (ps : List SPlayer)
    (h : ∀ i, connActAt ps i = false) : ∀ (fuel idx : Nat),
    findNextLoop ps idx fuel = none
  | 0, _ => rfl
  | fuel + 1, idx => by
      have hcond : ¬ (connActAt ps idx = true) := by simp [h idx]
      simp only [findNextLoop, if_neg hcond]
      exact findNextLoop_none ps h fuel ((idx + 1) % ps.length)

theorem findNextLoop_spec (ps : List SPlayer) :
    ∀ (fuel idx : Nat), idx < ps.length →
      (∃ k, k < fuel ∧ connActAt ps ((idx + k) % ps.length) = true) →
      ∃ k, k < fuel ∧ findNextLoop ps idx fuel = some ((idx + k) % ps.length) ∧
        connActAt ps ((idx + k) % ps.length) = true ∧
        ∀ j, j < k → connActAt ps ((idx + j) % ps.length) = false
  | 0, idx, _, h => absurd h (by simp)
  | fuel + 1, idx, hidx, h => by
      have hn : 0 < ps.length := Nat.lt_of_le_of_lt (Nat.zero_le _) hidx
      by_cases hc : connActAt ps idx = true
      · refine ⟨0, Nat.succ_pos _, ?_, ?_, ?_⟩
        · simp only [findNextLoop, if_pos hc]
          rw [Nat.add_zero, Nat.mod_eq_of_lt hidx]
        · rw [Nat.add_zero, Nat.mod_eq_of_lt hidx]; exact hc
        · intro j hj; exact absurd hj (Nat.not_lt_zero j)
      · obtain ⟨k, hk, hkconn⟩ := h
        have hk0 : k ≠ 0 := by
          intro h0; subst h0
          rw [Nat.add_zero, Nat.mod_eq_of_lt hidx] at hkconn
          exact hc hkconn
        obtain ⟨k', rfl⟩ : ∃ k', k = k' + 1 := ⟨k - 1, by omega⟩
        have hrec : ∃ m, m < fuel ∧
            connActAt ps (((idx + 1) % ps.length + m) % ps.length) = true := by
          refine ⟨k', by omega, ?_⟩
          rw [Nat.mod_add_mod]
          have harg : idx + 1 + k' = idx + (k' + 1) := by omega
          rw [harg]; exact hkconn
        have hidx1 : (idx + 1) % ps.length < ps.length := Nat.mod_lt _ hn
        obtain ⟨m, hm, heq, hconn, hmin⟩ := findNextLoop_spec ps fuel ((idx + 1) % ps.length) hidx1 hrec
        refine ⟨m + 1, by omega, ?_, ?_, ?_⟩
        · simp only [findNextLoop, if_neg hc]
          have harg : idx + 1 + m = idx + (m + 1) := by omega
          rw [heq, Nat.mod_add_mod, harg]
        · have harg : idx + 1 + m = idx + (m + 1) := by omega
          rw [← harg, ← Nat.mod_add_mod]
          exact hconn
        · intro j hj
          cases j with
          | zero =>
            rw [Nat.add_zero, Nat.mod_eq_of_lt hidx]
            rw [Bool.not_eq_true] at hc
            exact hc
          | succ j' =>
            have hj' := hmin j' (by omega)
            rw [Nat.mod_add_mod] at hj'
            have harg : idx + 1 + j' = idx + (j' + 1) := by omega
            rw [harg] at hj'
            exact hj'

theorem findNextLoop_lt (ps : List SPlayer) :
    ∀ (fuel idx : Nat), idx < ps.length → ∀ r, findNextLoop ps idx fuel = some r →
      r < ps.length
  | 0, _, _, _, h => by cases h
  | fuel + 1, idx, hidx, r, h => by
      have hn : 0 < ps.length := Nat.lt_of_le_of_lt (Nat.zero_le _) hidx
      by_cases hc : connActAt ps idx = true
      · simp only [findNextLoop, if_pos hc] at h
        cases h; exact hidx
      · simp only [findNextLoop, if_neg hc] at h
        exact findNextLoop_lt ps fuel ((idx + 1) % ps.length) (Nat.mod_lt _ hn) r h

theorem advanceScan_spec (ps : List GPlayer) :
    ∀ (fuel cur : Nat),
      (∃ k, k < fuel ∧ bankruptAt ps ((cur + 1 + k) % ps.length) = false) →
      ∃ k, k < fuel ∧ advanceScan ps cur fuel = (cur + 1 + k) % ps.length ∧
        bankruptAt ps ((cur + 1 + k) % ps.length) = false ∧
        ∀ j, j < k → bankruptAt ps ((cur + 1 + j) % ps.length) = true
  | 0, cur, h => absurd h (by simp)
  | fuel + 1, cur, h => by
      by_cases hb : bankruptAt ps ((cur + 1) % ps.length) = true
      · obtain ⟨k, hk, hkfree⟩ := h
        have hk0 : k ≠ 0 := by
          intro h0; subst h0
          rw [Nat.add_zero] at hkfree
          rw [hb] at hkfree; cases hkfree
        obtain ⟨k', rfl⟩ : ∃ k', k = k' + 1 := ⟨k - 1, by omega⟩
        have hf0 : fuel ≠ 0 := by omega
        have hcond : (bankruptAt ps ((cur + 1) % ps.length) = true) ∧ fuel ≠ 0 := ⟨hb, hf0⟩
        have hrec : ∃ m, m < fuel ∧
            bankruptAt ps (((cur + 1) % ps.length + 1 + m) % ps.length) = false := by
          refine ⟨k', by omega, ?_⟩
          have hsplit : (cur + 1) % ps.length + 1 + k' = (cur + 1) % ps.length + (1 + k') := by omega
          rw [hsplit, Nat.mod_add_mod]
          have harg : cur + 1 + (1 + k') = cur + 1 + (k' + 1) := by omega
          rw [harg]; exact hkfree
        obtain ⟨m, hm, heq, hfree, hmin⟩ := advanceScan_spec ps fuel ((cur + 1) % ps.length) hrec
        have hconv : ∀ j : Nat, ((cur + 1) % ps.length + 1 + j) % ps.length
            = (cur + 1 + (j + 1)) % ps.length := by
          intro j
          have hsplit : (cur + 1) % ps.length + 1 + j = (cur + 1) % ps.length + (1 + j) := by omega
          rw [hsplit, Nat.mod_add_mod]
          have harg : cur + 1 + (1 + j) = cur + 1 + (j + 1) := by omega
          rw [harg]
        refine ⟨m + 1, by omega, ?_, ?_, ?_⟩
        · show advanceScan ps cur (fuel + 1) = (cur + 1 + (m + 1)) % ps.length
          simp only [advanceScan]
          rw [if_pos hcond, heq, hconv m]
        · rw [← hconv m]; exact hfree
        · intro j hj
          cases j with
          | zero => rw [Nat.add_zero]; exact hb
          | succ j' =>
            have hj' := hmin j' (by omega)
            rw [hconv j'] at hj'
            exact hj'
      · refine ⟨0, Nat.succ_pos _, ?_, ?_, ?_⟩
        · simp only [advanceScan]
          rw [if_neg (fun hcond => hb hcond.1), Nat.add_zero]
        · rw [Nat.add_zero, Bool.not_eq_true] at *
          exact hb
        · intro j hj; exact absurd hj (Nat.not_lt_zero j)

theorem advanceScan_succ (ps : List GPlayer) (cur fuel : Nat) :
    advanceScan ps cur (fuel + 1)
      = (if bankruptAt ps ((cur + 1) % ps.length) = true ∧ fuel ≠ 0
         then advanceScan ps ((cur + 1) % ps.length) fuel
         else (cur + 1) % ps.length) := rfl

theorem advanceScan_all_bankrupt (ps : List GPlayer) (hn : 0 < ps.length)
    (hall : ∀ i, i < ps.length → bankruptAt ps i = true) :
    ∀ (fuel cur : Nat), advanceScan ps cur (fuel + 1) = (cur + 1 + fuel) % ps.length
  | 0, cur => by
      rw [advanceScan_succ, if_neg (fun hcond => hcond.2 rfl)]
  | f + 1, cur => by
      have hb : bankruptAt ps ((cur + 1) % ps.length) = true := hall _ (Nat.mod_lt _ hn)
      rw [advanceScan_succ, if_pos (And.intro hb (Nat.succ_ne_zero f))]
      rw [advanceScan_all_bankrupt ps hn hall f ((cur + 1) % ps.length)]
      have hsplit : (cur + 1) % ps.length + 1 + f = (cur + 1) % ps.length + (1 + f) := by omega
      rw [hsplit, Nat.mod_add_mod]
      have harg : cur + 1 + (1 + f) = cur + 1 + (f + 1) := by omega
      rw [harg]

/- ===================== Helper lemmas: solvency and winner scans ===================== -/

theorem lastSolvent_fold_nonneg (ps : List GPlayer) :
    ∀ (l : List Nat) (acc : Int), 0 ≤ acc →
      0 ≤ l.foldl (fun acc i => if bankruptAt ps i then acc else (i : Int)) acc
  | [], _, h => h
  | x :: l, acc, h => by
      simp only [List.foldl_cons]
      apply lastSolvent_fold_nonneg ps l
      by_cases hb : bankruptAt ps x = true
      · rw [if_pos hb]; exact h
      · rw [if_neg hb]; exact Int.natCast_nonneg x

theorem lastSolvent_fold_witness (ps : List GPlayer) :
    ∀ (l : List Nat) (acc : Int) (i : Nat), i ∈ l → bankruptAt ps i = false →
      0 ≤ l.foldl (fun acc i => if bankruptAt ps i then acc else (i : Int)) acc
  | [], _, i, hmem, _ => absurd hmem (List.not_mem_nil i)
  | x :: l, acc, i, hmem, hb => by
      simp only [List.foldl_cons]
      rcases List.mem_cons.mp hmem with rfl | hmem'
      · apply lastSolvent_fold_nonneg
        rw [if_neg (by simp [hb])]
        exact Int.natCast_nonneg i
      · exact lastSolvent_fold_witness ps l _ i hmem' hb

theorem lastSolvent_fold_cases (ps : List GPlayer) :
    ∀ (l : List Nat) (acc : Int),
      l.foldl (fun acc i => if bankruptAt ps i then acc else (i : Int)) acc = acc ∨
      ∃ i, i ∈ l ∧
        l.foldl (fun acc i => if bankruptAt ps i then acc else (i : Int)) acc = (i : Int) ∧
        bankruptAt ps i = false
  | [], _ => Or.inl rfl
  | x :: l, acc => by
      simp only [List.foldl_cons]
      by_cases hb : bankruptAt ps x = true
      · rw [if_pos hb]
        rcases lastSolvent_fold_cases ps l acc with h | ⟨i, hi, heq, hib⟩
        · exact Or.inl h
        · exact Or.inr ⟨i, List.mem_cons_of_mem x hi, heq, hib⟩
      · rw [if_neg hb]
        rcases lastSolvent_fold_cases ps l (x : Int) with h | ⟨i, hi, heq, hib⟩
        · exact Or.inr ⟨x, List.mem_cons_self x l, h, by simpa using hb⟩
        · exact Or.inr ⟨i, List.mem_cons_of_mem x hi, heq, hib⟩

theorem lastSolvent_spec (ps : List GPlayer) (i : Nat)
    (hi : i < ps.length) (hb : bankruptAt ps i = false) :
    0 ≤ lastSolvent ps ∧ (lastSolvent ps).toNat < ps.length ∧
      bankruptAt ps (lastSolvent ps).toNat = false := by
  have h0 : 0 ≤ lastSolvent ps :=
    lastSolvent_fold_witness ps (List.range ps.length) (-1) i (List.mem_range.mpr hi) hb
  refine ⟨h0, ?_⟩
  rcases lastSolvent_fold_cases ps (List.range ps.length) (-1) with h | ⟨j, hj, heq, hjb⟩
  · exfalso
    unfold lastSolvent at h0
    rw [h] at h0
    omega
  · unfold lastSolvent
    rw [heq]
    have hjlt : j < ps.length := List.mem_range.mp hj
    constructor
    · simpa using hjlt
    · simpa using hjb

theorem solventCount_one (ps : List GPlayer) (h : solventCount ps = 1) :
    ∃ i, i < ps.length ∧ bankruptAt ps i = false ∧
      ∀ j, j < ps.length → bankruptAt ps j = false → j = i := by
  unfold solventCount at h
  obtain ⟨a, ha⟩ := List.length_eq_one.mp h
  have hmem : a ∈ (List.range ps.length).filter (fun i => !(bankruptAt ps i)) := by
    rw [ha]; exact List.mem_singleton_self a
  obtain ⟨har, hab⟩ := List.mem_filter.mp hmem
  refine ⟨a, List.mem_range.mp har, by simpa using hab, ?_⟩
  intro j hj hjb
  have hjmem : j ∈ (List.range ps.length).filter (fun i => !(bankruptAt ps i)) :=
    List.mem_filter.mpr ⟨List.mem_range.mpr hj, by simp [hjb]⟩
  rw [ha] at hjmem
  exact List.mem_singleton.mp hjmem

theorem richestLoop_eq (ps : List GPlayer) (i richest : Nat) (maxm : Int) :
    richestLoop ps i richest maxm =
      if i < ps.length then
        (if maxm < moneyAt ps i then richestLoop ps (i + 1) i (moneyAt ps i)
         else richestLoop ps (i + 1) richest maxm)
      else richest := by
  rw [richestLoop.eq_def]
  rfl

theorem richestLoop_spec (ps : List GPlayer) :
    ∀ (d i richest : Nat) (maxm : Int), ps.length - i = d →
      richest < ps.length → richest < i → maxm = moneyAt ps richest →
      (∀ j, j < i → moneyAt ps j ≤ maxm) →
      (∀ j, j < i → moneyAt ps j = maxm → richest ≤ j) →
      richestLoop ps i richest maxm < ps.length ∧
      (∀ j, j < ps.length → moneyAt ps j ≤ moneyAt ps (richestLoop ps i richest maxm)) ∧
      (∀ j, j < ps.length → moneyAt ps j = moneyAt ps (richestLoop ps i richest maxm) →
        richestLoop ps i richest maxm ≤ j) := by
  intro d
  induction d with
  | zero =>
    intro i richest maxm hd hr _ hm hle hmin
    have hge : ¬ i < ps.length := by omega
    rw [richestLoop_eq ps, if_neg hge]
    refine ⟨hr, ?_, ?_⟩
    · intro j hj
      rw [← hm]
      exact hle j (by omega)
    · intro j hj hjm
      rw [← hm] at hjm
      exact hmin j (by omega) hjm
  | succ d ih =>
    intro i richest maxm hd hr hri hm hle hmin
    have hi : i < ps.length := by omega
    rw [richestLoop_eq ps, if_pos hi]
    by_cases hlt : maxm < moneyAt ps i
    · rw [if_pos hlt]
      apply ih (i + 1) i (moneyAt ps i) (by omega) hi (by omega) rfl
      · intro j hj
        rcases Nat.lt_succ_iff_lt_or_eq.mp hj with hj' | rfl
        · exact le_of_lt (lt_of_le_of_lt (hle j hj') hlt)
        · exact le_refl _
      · intro j hj hjm
        rcases Nat.lt_succ_iff_lt_or_eq.mp hj with hj' | rfl
        · exfalso
          have := hle j hj'
          omega
        · exact le_refl _
    · rw [if_neg hlt]
      apply ih (i + 1) richest maxm (by omega) hr (by omega) hm
      · intro j hj
        rcases Nat.lt_succ_iff_lt_or_eq.mp hj with hj' | rfl
        · exact hle j hj'
        · exact Int.not_lt.mp hlt
      · intro j hj hjm
        rcases Nat.lt_succ_iff_lt_or_eq.mp hj with hj' | rfl
        · exact hmin j hj' hjm
        · exact le_of_lt hri

theorem richestIdx_spec (ps : List GPlayer) (hn : 0 < ps.length) :
    richestIdx ps < ps.length ∧
    (∀ j, j < ps.length → moneyAt ps j ≤ moneyAt ps (richestIdx ps)) ∧
    (∀ j, j < ps.length → moneyAt ps j = moneyAt ps (richestIdx ps) → richestIdx ps ≤ j) := by
  unfold richestIdx
  apply richestLoop_spec ps (ps.length - 1) 1 0 (moneyAt ps 0) rfl hn (by omega) rfl
  · intro j hj
    have : j = 0 := by omega
    subst this
    exact le_refl _
  · intro j hj _
    exact Nat.zero_le j

/- ===================== Helper lemmas: advance_turn structure ===================== -/

theorem advance_turn_players (s : GameState) : (advance_turn s).players = s.players := by
  simp only [advance_turn]
  split <;> first | rfl | (split <;> first | rfl | (split <;> rfl))

theorem advance_turn_count (s : GameState) :
    (advance_turn s).active_player_count = s.active_player_count := by
  simp only [advance_turn]
  split <;> first | rfl | (split <;> first | rfl | (split <;> rfl))

theorem advance_turn_current (s : GameState) :
    (advance_turn s).current_turn = advanceScan s.players s.current_turn 5 := by
  simp only [advance_turn]
  split <;> first | rfl | (split <;> first | rfl | (split <;> rfl))

theorem advance_turn_round (s : GameState) :
    (advance_turn s).round
      = (if advanceScan s.players s.current_turn 5 = 0 then s.round + 1 else s.round) := by
  simp only [advance_turn]
  split <;> first | rfl | (split <;> first | rfl | (split <;> rfl))

theorem advance_turn_gameover_iff (s : GameState) :
    (advance_turn s).game_state = GameStatus.GAME_OVER ↔
      (solventCount s.players = 1 ∨
        50 ≤ (if advanceScan s.players s.current_turn 5 = 0 then s.round + 1 else s.round) ∨
        s.game_state = GameStatus.GAME_OVER) := by
  by_cases hc : (solventCount s.players = 1 ∧ 0 ≤ lastSolvent s.players) ∨
      50 ≤ (if advanceScan s.players s.current_turn 5 = 0 then s.round + 1 else s.round)
  · have hgo : (advance_turn s).game_state = GameStatus.GAME_OVER := by
      simp only [advance_turn]
      rw [if_pos hc]
      split <;> first | rfl | (split <;> rfl)
    constructor
    · intro _
      rcases hc with ⟨h1, _⟩ | h2
      · exact Or.inl h1
      · exact Or.inr (Or.inl h2)
    · intro _
      exact hgo
  · have hbase : (advance_turn s).game_state = s.game_state := by
      simp only [advance_turn]
      rw [if_neg hc]
    rw [hbase]
    constructor
    · intro h3
      exact Or.inr (Or.inr h3)
    · intro h3
      rcases h3 with h1 | h2 | h3
      · exfalso
        obtain ⟨i, hi, hb, _⟩ := solventCount_one s.players h1
        exact hc (Or.inl ⟨h1, (lastSolvent_spec s.players i hi hb).1⟩)
      · exact absurd (Or.inr h2) hc
      · exact h3

theorem advance_turn_scores_of_not_over (s : GameState)
    (h : (advance_turn s).game_state ≠ GameStatus.GAME_OVER) :
    (advance_turn s).scores = s.scores ∧ (advance_turn s).total_games = s.total_games := by
  by_cases hc : (solventCount s.players = 1 ∧ 0 ≤ lastSolvent s.players) ∨
      50 ≤ (if advanceScan s.players s.current_turn 5 = 0 then s.round + 1 else s.round)
  · exfalso
    apply h
    simp only [advance_turn]
    rw [if_pos hc]
    split <;> first | rfl | (split <;> rfl)
  · constructor <;>
      · simp only [advance_turn]
        rw [if_neg hc]

/- ===================== Claim theorems ===================== -/

/-- C10: `scheduler_is_my_turn` returns 1 exactly when the queried id equals
the current player index and that slot is marked connected — a disconnected
player whose index is still current is told it is not their turn; it
returns -1 on an uninitialized scheduler (`none`) or an id outside
`[0, num_players)`; and in every remaining case — an in-range id that is
not current, or is current but disconnected — it returns 0.  The function
is pure: it reads the state and produces only a result code, so it
mutates nothing and cannot fault (out-of-range ids are rejected before
any slot is read). -/
theorem C10_is_my_turn_spec :
    (∀ player_id : Int, scheduler_is_my_turn none player_id = -1) ∧
    (∀ (s : SchedulerState) (player_id : Int),
      player_id < 0 ∨ (s.players.length : Int) ≤ player_id →
      scheduler_is_my_turn (some s) player_id = -1) ∧
    (∀ (s : SchedulerState) (player_id : Int),
      0 ≤ player_id → player_id < (s.players.length : Int) →
      (scheduler_is_my_turn (some s) player_id = 1 ↔
        ((s.current_player_idx : Int) = player_id ∧
          connectedAt s.players player_id.toNat = true))) ∧
    (∀ (s : SchedulerState) (player_id : Int),
      0 ≤ player_id → player_id < (s.players.length : Int) →
      ¬ ((s.current_player_idx : Int) = player_id ∧
          connectedAt s.players player_id.toNat = true) →
      scheduler_is_my_turn (some s) player_id = 0) := by
  refine ⟨fun _ => rfl, ?_, ?_, ?_⟩
  · intro s pid h
    simp only [scheduler_is_my_turn]
    rw [if_pos h]
  · intro s pid h0 hlt
    have hcond : ¬ (pid < 0 ∨ (s.players.length : Int) ≤ pid) := by omega
    simp only [scheduler_is_my_turn]
    rw [if_neg hcond]
    constructor
    · intro h1
      by_cases hc : (s.current_player_idx : Int) = pid ∧ connectedAt s.players pid.toNat = true
      · exact hc
      · rw [if_neg hc] at h1
        exact absurd h1 (by decide)
    · intro hc
      rw [if_pos hc]
  · intro s pid h0 hlt hc
    have hcond : ¬ (pid < 0 ∨ (s.players.length : Int) ≤ pid) := by omega
    simp only [scheduler_is_my_turn]
    rw [if_neg hcond, if_neg hc]

/-- Witness for C10 at concrete inputs: uninitialized scheduler,
out-of-range id, the connected current player, an in-range id that is not
current, and a current but disconnected player. -/
theorem C10_witness :
    scheduler_is_my_turn none 0 = -1 ∧
    scheduler_is_my_turn (some sW2) 5 = -1 ∧
    scheduler_is_my_turn (some sW6) 0 = 1 ∧
    scheduler_is_my_turn (some sW6) 1 = 0 ∧
    scheduler_is_my_turn (some sW2) 0 = 0 := by
  refine ⟨C10_is_my_turn_spec.1 0, ?_, ?_, ?_, ?_⟩
  · exact C10_is_my_turn_spec.2.1 sW2 5 (by decide)
  · exact (C10_is_my_turn_spec.2.2.1 sW6 0 (by decide) (by decide)).mpr ⟨by decide, by decide⟩
  · exact C10_is_my_turn_spec.2.2.2 sW6 1 (by decide) (by decide) (by decide)
  · exact C10_is_my_turn_spec.2.2.2 sW2 0 (by decide) (by decide) (by decide)

/-- C2 counterexample: `cexC2` is a PLAYING game state in which no slot is
eligible for a turn — every slot is disconnected (inactive, the game
state's record of a connected session) and none is bankrupt — yet
`advance_turn`, the turn advance wired into the live server path, neither
fails (the C function returns void and reports nothing) nor leaves the
state unchanged: it moves `current_turn` from 0 to slot 1, because its
scan consults only `is_bankrupt` (src/game_state.c:179-183). -/
theorem C2_counterexample :
    (∀ i, i < cexC2.players.length →
      ¬ (activeAt cexC2.players i = true ∧ bankruptAt cexC2.players i = false)) ∧
    advance_turn cexC2 ≠ cexC2 ∧
    (advance_turn cexC2).current_turn ≠ cexC2.current_turn := by decide

/-- C2 (amended): when no slot is eligible, the scheduler module's
`scheduler_advance_turn` fails with the NoActivePlayersError result (-1,
modelled `none`) and returns the scheduler state entirely unchanged —
currentPlayerIndex, roundNumber, totalMoves, the game-in-progress status,
the turn signals and every player slot exactly as before (in the scheduler
state a slot is eligible when connected and active; its slots carry no
bankruptcy flag, so no slot is ever bankrupt there).  The live game path's
`advance_turn`, by contrast, has no failure path: it ignores
connectivity/activity altogether when reassigning `current_turn` (see the
C1 theorems), and even with every slot bankrupt it still walks the index
the full five attempts forward instead of failing with the state
unchanged. -/
theorem C2_advance_no_eligible :
    (∀ s : SchedulerState,
      (∀ i, i < s.players.length → ¬ (connActAt s.players i = true)) →
      scheduler_advance_turn s = (none, s)) ∧
    (∀ s : GameState, 0 < s.players.length →
      (∀ i, i < s.players.length → bankruptAt s.players i = true) →
      (advance_turn s).current_turn = (s.current_turn + 5) % s.players.length) := by
  constructor
  · intro s h
    have hall : ∀ i, connActAt s.players i = false := by
      intro i
      by_cases hi : i < s.players.length
      · have := h i hi
        simpa using this
      · unfold connActAt
        have hnone : s.players.get? i = none := List.get?_eq_none.mpr (by omega)
        rw [hnone]
    have hfind : find_next_active_player s = none := by
      unfold find_next_active_player
      split
      · rfl
      · exact findNextLoop_none s.players hall _ _
    simp only [scheduler_advance_turn, hfind]
  · intro s hn hall
    rw [advance_turn_current]
    rw [advanceScan_all_bankrupt s.players hn hall 4 s.current_turn]

/-- Witness for C2 (amended): the scheduler state `sW2` with three
disconnected slots is returned unchanged with the error result. -/
theorem C2_witness : scheduler_advance_turn sW2 = (none, sW2) :=
  C2_advance_no_eligible.1 sW2 (by decide)

/-- C5 counterexample: advancing from `cexC5` (current index 2, slot 0
bankrupt) lands on index 1, which is ≤ the previous index and nonzero, yet
`round` is not incremented — refuting the claim that roundNumber is
incremented exactly when the new index is ≤ the previous one or 0. -/
theorem C5_counterexample :
    (advance_turn cexC5).current_turn ≤ cexC5.current_turn ∧
    (advance_turn cexC5).current_turn ≠ 0 ∧
    (advance_turn cexC5).round = cexC5.round := by decide

/-- C5 (amended): the game-state `advance_turn` increments `round` exactly
when the new current index equals 0 (not whenever it is ≤ the previous
index), and `round` is non-decreasing; `scheduler_advance_turn` increments
`total_moves` by exactly one on every success and never changes
`round_number`; the scheduler thread loop (`scheduler_tick`) increments
`round_number` exactly when the newly chosen index is 0 and also counts
the move. -/
theorem C5_round_and_moves :
    (∀ s : GameState, (advance_turn s).round
        = (if (advance_turn s).current_turn = 0 then s.round + 1 else s.round)) ∧
    (∀ s : GameState, s.round ≤ (advance_turn s).round) ∧
    (∀ (s : SchedulerState) (nxt : Nat) (s' : SchedulerState),
        scheduler_advance_turn s = (some nxt, s') →
        s'.total_moves = s.total_moves + 1 ∧ s'.round_number = s.round_number) ∧
    (∀ s : SchedulerState, s.game_in_progress = true → 0 < s.active_player_count →
        ∀ nxt, find_next_active_player s = some nxt →
        (scheduler_tick s).round_number
          = (if nxt = 0 then s.round_number + 1 else s.round_number) ∧
        (scheduler_tick s).total_moves = s.total_moves + 1) := by
  refine ⟨?_, ?_, ?_, ?_⟩
  · intro s
    rw [advance_turn_round, advance_turn_current]
  · intro s
    rw [advance_turn_round]
    split <;> omega
  · intro s nxt s' h
    cases hf : find_next_active_player s with
    | none =>
      simp only [scheduler_advance_turn, hf] at h
      injection h with h1 h2
      exact Option.noConfusion h1
    | some m =>
      simp only [scheduler_advance_turn, hf, Prod.mk.injEq, Option.some.injEq] at h
      obtain ⟨rfl, rfl⟩ := h
      exact ⟨rfl, rfl⟩
  · intro s hg hc nxt hf
    simp only [scheduler_tick]
    rw [if_pos (And.intro hg hc), hf]
    exact ⟨rfl, rfl⟩

/-- Witness for C5 at a concrete scheduler state: the successful advance
increments `total_moves` and leaves `round_number` alone. -/
theorem C5_witness :
    (scheduler_advance_turn sW5).2.total_moves = sW5.total_moves + 1 ∧
    (scheduler_advance_turn sW5).2.round_number = sW5.round_number :=
  C5_round_and_moves.2.2.1 sW5 1 (scheduler_advance_turn sW5).2 (by decide)

/-- C8: `logger_log` never blocks (it is a total function) and on a full
queue (`LOG_MAX_MSGS` = 10 pending lines) it drops the message, leaving
the pipeline unchanged and reporting nothing to the caller; over any
sequence of enqueue/drain events the file content followed by the pending
queue is exactly the previously present lines followed by the accepted
lines in submission (FIFO) order; the queue never exceeds 10 entries; and
in the concrete scenario of eleven enqueues into an empty pipeline the
11th is dropped and draining writes exactly the first ten lines to the
file in order. -/
theorem C8_logger_fifo :
    (∀ (s : LoggerState) (msg : LogLine), LOG_MAX_MSGS ≤ s.queue.length →
      logger_log s msg = s) ∧
    (∀ (ops : List LogOp) (s : LoggerState),
      (logger_run s ops).file ++ (logger_run s ops).queue
        = (s.file ++ s.queue) ++ logger_accepted s ops) ∧
    (∀ (ops : List LogOp) (s : LoggerState), s.queue.length ≤ LOG_MAX_MSGS →
      (logger_run s ops).queue.length ≤ LOG_MAX_MSGS) ∧
    ((logger_run initLogger opsC8).file = (List.range 10).map (fun i => [i]) ∧
      (logger_run initLogger opsC8).queue = [] ∧
      logger_accepted initLogger opsC8 = (List.range 10).map (fun i => [i])) := by
  refine ⟨?_, ?_, ?_, by decide⟩
  · intro s m h
    unfold logger_log
    rw [if_neg (by omega)]
  · intro ops
    induction ops with
    | nil =>
      intro s
      simp [logger_run, logger_accepted]
    | cons op ops ih =>
      intro s
      cases op with
      | enq m =>
        simp only [logger_run, logger_step, logger_accepted]
        rw [ih (logger_log s m)]
        unfold logger_log
        by_cases hfull : s.queue.length < LOG_MAX_MSGS
        · rw [if_pos hfull, if_pos hfull]
          simp [List.append_assoc]
        · rw [if_neg hfull, if_neg hfull]
          simp
      | drain =>
        simp only [logger_run, logger_step, logger_accepted]
        rw [ih (logger_drain1 s)]
        have hfq : (logger_drain1 s).file ++ (logger_drain1 s).queue
            = s.file ++ s.queue := by
          unfold logger_drain1
          cases hq : s.queue with
          | nil => simp [hq]
          | cons m rest => simp
        rw [hfq]
  · intro ops
    induction ops with
    | nil =>
      intro s h
      simpa [logger_run] using h
    | cons op ops ih =>
      intro s h
      cases op with
      | enq m =>
        simp only [logger_run, logger_step]
        apply ih
        unfold logger_log
        by_cases hfull : s.queue.length < LOG_MAX_MSGS
        · rw [if_pos hfull]
          simp only [List.length_append, List.length_cons, List.length_nil]
          omega
        · rw [if_neg hfull]
          exact h
      | drain =>
        simp only [logger_run, logger_step]
        apply ih
        unfold logger_drain1
        cases hq : s.queue with
        | nil => simpa using h
        | cons m rest =>
          rw [hq] at h
          simp at h ⊢
          omega

/-- Witness for C8: an enqueue against a full queue returns the pipeline
unchanged. -/
theorem C8_witness : logger_log s10full [7] = s10full :=
  C8_logger_fifo.1 s10full [7] (by decide)

/-- C1 counterexample: `cexC1` is a PLAYING state with an eligible slot
(slot 2 is active and solvent) whose slot 1 is disconnected (inactive) but
not bankrupt; `advance_turn` nevertheless selects slot 1, because the scan
in src/game_state.c:179-183 tests only `is_bankrupt` and never consults
activity/connectivity. -/
theorem C1_counterexample :
    cexC1.game_state = GameStatus.PLAYING ∧
    activeAt cexC1.players 2 = true ∧ bankruptAt cexC1.players 2 = false ∧
    activeAt cexC1.players 1 = false ∧ bankruptAt cexC1.players 1 = false ∧
    (advance_turn cexC1).current_turn = 1 := by decide

/-- C1 (amended): the game-state `advance_turn` scans forward from
`(current + 1) % numPlayers` and installs the first non-bankrupt slot,
within at most numPlayers attempts (the C bound is the constant
MAX_PLAYERS = 5 ≥ numPlayers); it never lands on a bankrupt slot while a
non-bankrupt one exists, but it does not check connection or activity.
The scheduler's `find_next_active_player`, by contrast, returns the first
connected-and-active slot from `(current + 1) % numPlayers` within
numPlayers attempts, ignoring bankruptcy (which its state does not
track). -/
theorem C1_first_eligible_scan :
    (∀ s : GameState, s.game_state = GameStatus.PLAYING →
      0 < s.players.length → s.players.length ≤ 5 →
      (∃ i, i < s.players.length ∧ bankruptAt s.players i = false) →
      ∃ k, k < s.players.length ∧
        (advance_turn s).current_turn = (s.current_turn + 1 + k) % s.players.length ∧
        bankruptAt s.players ((s.current_turn + 1 + k) % s.players.length) = false ∧
        (∀ j, j < k →
          bankruptAt s.players ((s.current_turn + 1 + j) % s.players.length) = true)) ∧
    (∀ s : SchedulerState, 0 < s.players.length →
      (∃ i, i < s.players.length ∧ connActAt s.players i = true) →
      ∃ k, k < s.players.length ∧
        find_next_active_player s
          = some ((s.current_player_idx + 1 + k) % s.players.length) ∧
        connActAt s.players ((s.current_player_idx + 1 + k) % s.players.length) = true ∧
        (∀ j, j < k →
          connActAt s.players ((s.current_player_idx + 1 + j) % s.players.length) = false)) := by
  constructor
  · intro s _hp hn h5 hex
    obtain ⟨i, hi, hib⟩ := hex
    obtain ⟨k, hkn, hkeq⟩ := exists_offset s.players.length i (s.current_turn + 1) hn hi
    have hkfree : bankruptAt s.players ((s.current_turn + 1 + k) % s.players.length) = false := by
      rw [hkeq]
      exact hib
    have hex5 : ∃ m, m < 5 ∧
        bankruptAt s.players ((s.current_turn + 1 + m) % s.players.length) = false :=
      ⟨k, by omega, hkfree⟩
    obtain ⟨k0, _hk05, heq, hfree, hmin⟩ := advanceScan_spec s.players 5 s.current_turn hex5
    have hk0n : k0 < s.players.length := by
      by_contra hge
      have hbad : bankruptAt s.players ((s.current_turn + 1 + k) % s.players.length) = true :=
        hmin k (by omega)
      rw [hbad] at hkfree
      cases hkfree
    refine ⟨k0, hk0n, ?_, hfree, hmin⟩
    rw [advance_turn_current]
    exact heq
  · intro s hn hex
    obtain ⟨i, hi, hic⟩ := hex
    have hstart : (s.current_player_idx + 1) % s.players.length < s.players.length :=
      Nat.mod_lt _ hn
    obtain ⟨k, hkn, hkeq⟩ :=
      exists_offset s.players.length i ((s.current_player_idx + 1) % s.players.length) hn hi
    have hconv : ∀ j : Nat,
        ((s.current_player_idx + 1) % s.players.length + j) % s.players.length
          = (s.current_player_idx + 1 + j) % s.players.length := by
      intro j
      rw [Nat.mod_add_mod]
    have hex' : ∃ m, m < s.players.length ∧
        connActAt s.players
          (((s.current_player_idx + 1) % s.players.length + m) % s.players.length) = true := by
      refine ⟨k, hkn, ?_⟩
      rw [hkeq]
      exact hic
    obtain ⟨m, hm, heq, hconn, hmin⟩ :=
      findNextLoop_spec s.players s.players.length _ hstart hex'
    refine ⟨m, hm, ?_, ?_, ?_⟩
    · unfold find_next_active_player
      rw [if_neg (by omega), heq, hconv m]
    · rw [← hconv m]
      exact hconn
    · intro j hj
      have hj' := hmin j hj
      rw [hconv j] at hj'
      exact hj'

/-- Witness for C1 (amended) at the concrete state `cexC1`. -/
theorem C1_witness :
    ∃ k, k < cexC1.players.length ∧
      (advance_turn cexC1).current_turn = (cexC1.current_turn + 1 + k) % cexC1.players.length ∧
      bankruptAt cexC1.players ((cexC1.current_turn + 1 + k) % cexC1.players.length) = false ∧
      (∀ j, j < k →
        bankruptAt cexC1.players ((cexC1.current_turn + 1 + j) % cexC1.players.length) = true) :=
  C1_first_eligible_scan.1 cexC1 (by decide) (by decide) (by decide) ⟨2, by decide, by decide⟩

/-- C6: after every successful `scheduler_advance_turn`, assuming the
signal invariant (no semaphore above one — the poster only posts a signal
whose value is zero), the new current player's signal holds exactly one,
every other signal is drained to zero, at most one signal is ready, and
the invariant is preserved. -/
theorem C6_signals_exactly_one (s : SchedulerState) (nxt : Nat) (s' : SchedulerState)
    (hlen : s.turn_signal.length = s.players.length)
    (hinv : ∀ v ∈ s.turn_signal, v ≤ 1)
    (hadv : scheduler_advance_turn s = (some nxt, s')) :
    nxt < s.players.length ∧
    s'.turn_signal.length = s.players.length ∧
    s'.turn_signal.get? nxt = some 1 ∧
    (∀ i, i < s.players.length → i ≠ nxt → s'.turn_signal.get? i = some 0) ∧
    (∀ i j, i < s.players.length → j < s.players.length →
      s'.turn_signal.get? i ≠ some 0 → s'.turn_signal.get? j ≠ some 0 → i = j) ∧
    (∀ v ∈ s'.turn_signal, v ≤ 1) := by
  cases hf : find_next_active_player s with
  | none =>
    simp only [scheduler_advance_turn, hf] at hadv
    injection hadv with h1 _
    exact Option.noConfusion h1
  | some m =>
    simp only [scheduler_advance_turn, hf, Prod.mk.injEq, Option.some.injEq] at hadv
    obtain ⟨h1, h2⟩ := hadv
    subst h1
    subst h2
    have hnxt : m < s.players.length := by
      unfold find_next_active_player at hf
      by_cases h0 : s.players.length = 0
      · rw [if_pos h0] at hf
        cases hf
      · rw [if_neg h0] at hf
        exact findNextLoop_lt s.players s.players.length _
          (Nat.mod_lt _ (by omega)) m hf
    have hget : ∀ i, i < s.players.length →
        (update_turn_signals m 0 s.turn_signal).get? i
          = some (if i = m then 1 else 0) := by
      intro i hi
      have hi' : i < s.turn_signal.length := by omega
      obtain ⟨v, hv⟩ := get?_some_of_lt hi'
      have hv1 : v ≤ 1 := hinv v (List.get?_mem hv)
      rw [update_turn_signals_get? m 0 s.turn_signal i, hv]
      simp only [Option.map_some', Nat.zero_add]
      by_cases him : i = m
      · rw [if_pos him, if_pos him]
        have hv01 : v = 0 ∨ v = 1 := by omega
        rcases hv01 with rfl | rfl <;> rfl
      · rw [if_neg him, if_neg him]
    have hlen' : (update_turn_signals m 0 s.turn_signal).length = s.players.length := by
      rw [update_turn_signals_length]
      exact hlen
    refine ⟨hnxt, hlen', ?_, ?_, ?_, ?_⟩
    · rw [hget m hnxt, if_pos rfl]
    · intro i hi hne
      rw [hget i hi, if_neg hne]
    · intro i j hi hj hine hjne
      by_cases him : i = m
      · by_cases hjm : j = m
        · rw [him, hjm]
        · exfalso
          exact hjne (by rw [hget j hj, if_neg hjm])
      · exfalso
        exact hine (by rw [hget i hi, if_neg him])
    · intro v hv
      obtain ⟨i, hiv⟩ := List.mem_iff_get?.mp hv
      have hi : i < s.players.length := by
        by_contra hge
        have : (update_turn_signals m 0 s.turn_signal).get? i = none :=
          List.get?_eq_none.mpr (by omega)
        rw [this] at hiv
        cases hiv
      rw [hget i hi] at hiv
      injection hiv with hiv
      subst hiv
      split <;> omega

/-- Witness for C6 at the concrete scheduler state `sW6`: the advance moves
to player 1, raises exactly that player's signal to one and drains the
previously raised signal of player 0. -/
theorem C6_witness :
    (1 : Nat) < sW6.players.length ∧
    (scheduler_advance_turn sW6).2.turn_signal.get? 1 = some 1 ∧
    (scheduler_advance_turn sW6).2.turn_signal.get? 0 = some 0 ∧
    (scheduler_advance_turn sW6).2.turn_signal.get? 2 = some 0 := by
  obtain ⟨h1, h2, h3, h4, h5, h6⟩ :=
    C6_signals_exactly_one sW6 1 (scheduler_advance_turn sW6).2
      (by decide) (by decide) (by decide)
  exact ⟨h1, h3, h4 0 (by decide) (by decide), h4 2 (by decide) (by decide)⟩

/-- C3 counterexample: `gOverC3` is a reachable GAME_OVER state (three
clients join, players 0 and 1 go bankrupt in their acts), yet calling
`advance_turn` on it mutates the state — the function checks no status, so
it moves `current_turn` and re-runs the game-over block, bumping the
scores again, rather than failing with no mutation.  Moreover the claimed
equivalence fails in the other direction on the reachable initial state:
its solvent-player count is 0 ≤ 1 and its round is below 50, yet the
status is WAITING, not GAME_OVER. -/
theorem C3_counterexample :
    GReachable gOverC3 ∧ gOverC3.game_state = GameStatus.GAME_OVER ∧
    advance_turn gOverC3 ≠ gOverC3 ∧
    GReachable initGameState ∧
    initGameState.game_state ≠ GameStatus.GAME_OVER ∧
    solventCount initGameState.players ≤ 1 ∧ initGameState.round < 50 := by
  refine ⟨?_, by decide, by decide, Relation.ReflTransGen.refl, by decide, by decide, by decide⟩
  have s1 : GStep initGameState cSt1 := GStep.connect initGameState (by decide) (by decide)
  have s2 : GStep cSt1 cSt2 := GStep.connect cSt1 (by decide) (by decide)
  have s3 : GStep cSt2 cSt3 := GStep.connect cSt2 (by decide) (by decide)
  have s4 : GStep cSt3 gBadC7 :=
    GStep.act cSt3 0 10 (-10) none 0 (by decide) (by decide) (by decide) (by decide)
      (by decide) (by decide)
  have s5 : GStep gBadC7 gOverC3 :=
    GStep.act gBadC7 1 5 (-1) none 0 (by decide) (by decide) (by decide) (by decide)
      (by decide) (by decide)
  exact Relation.ReflTransGen.tail
    (Relation.ReflTransGen.tail
      (Relation.ReflTransGen.tail
        (Relation.ReflTransGen.tail (Relation.ReflTransGen.single s1) s2) s3) s4) s5

/-- C3 (amended): GAME_OVER is terminal — every server operation applied to
a GAME_OVER state yields a GAME_OVER state (the accept loop never resets
the status, disconnects do not touch it, and `advance_turn` can only set
GAME_OVER, never clear it) — and `advance_turn` produces GAME_OVER exactly
when the recomputed solvent count equals 1, or the post-increment round
reached the 50-round cap, or the status was already GAME_OVER.  The code
performs no status check inside `advance_turn`, so the original claim's
guarantee that calls made in GAME_OVER fail without mutating is not a
property of the function (see the counterexample); the server instead
never invokes it outside PLAYING — indeed in the modelled operation
system no step at all applies to a GAME_OVER state: the accept loop
rejects new clients and the handler loops exit, so no operation leaves
GAME_OVER and none is performed inside it. -/
theorem C3_game_over_terminal :
    (∀ s : GameState, s.game_state = GameStatus.GAME_OVER →
      (connectOp s).game_state = GameStatus.GAME_OVER ∧
      (∀ i, (disconnectOp s i).game_state = GameStatus.GAME_OVER) ∧
      (advance_turn s).game_state = GameStatus.GAME_OVER ∧
      (∀ i pos' money' payee rent,
        (actOp s i pos' money' payee rent).game_state = GameStatus.GAME_OVER)) ∧
    (∀ s : GameState, (advance_turn s).game_state = GameStatus.GAME_OVER ↔
      (solventCount s.players = 1 ∨ 50 ≤ (advance_turn s).round ∨
        s.game_state = GameStatus.GAME_OVER)) ∧
    (∀ s s' : GameState, GStep s s' → s.game_state = GameStatus.GAME_OVER → False) := by
  have hiff : ∀ s : GameState, (advance_turn s).game_state = GameStatus.GAME_OVER ↔
      (solventCount s.players = 1 ∨ 50 ≤ (advance_turn s).round ∨
        s.game_state = GameStatus.GAME_OVER) := by
    intro s
    rw [advance_turn_round]
    exact advance_turn_gameover_iff s
  have hadv : ∀ t : GameState, t.game_state = GameStatus.GAME_OVER →
      (advance_turn t).game_state = GameStatus.GAME_OVER := by
    intro t ht
    exact (hiff t).mpr (Or.inr (Or.inr ht))
  refine ⟨?_, hiff, ?_⟩
  · intro s hgo
    refine ⟨?_, ?_, hadv s hgo, ?_⟩
    · simp only [connectOp]
      split
      · next hcond =>
        exfalso
        have h3 : s.game_state = GameStatus.WAITING := hcond.2
        rw [hgo] at h3
        exact GameStatus.noConfusion h3
      · exact hgo
    · intro i
      exact hgo
    · intro i pos' money' payee rent
      simp only [actOp]
      apply hadv
      split <;> exact hgo
  · intro s s' hstep hgo
    cases hstep with
    | connect h1 h2 => exact h2 hgo
    | disconnect i h1 h2 h3 h4 h5 =>
      rw [hgo] at h2
      exact GameStatus.noConfusion h2
    | act i pos' money' payee rent h1 h2 h3 h4 h5 h6 =>
      rw [hgo] at h2
      exact GameStatus.noConfusion h2
    | skipBankrupt h1 h2 =>
      rw [hgo] at h1
      exact GameStatus.noConfusion h1

/-- Witness for C3 at the reachable GAME_OVER state `gOverC3`: a further
accept leaves the status GAME_OVER, as does a further `advance_turn`. -/
theorem C3_witness :
    (connectOp gOverC3).game_state = GameStatus.GAME_OVER ∧
    (advance_turn gOverC3).game_state = GameStatus.GAME_OVER := by
  obtain ⟨h1, _h2, h3, _h4⟩ := C3_game_over_terminal.1 gOverC3 (by decide)
  exact ⟨h1, h3⟩

theorem bump_wins_games (scores : List Score) (w n i : Nat) (hi : i < scores.length) :
    winsAt (bumpScores w n 0 scores) i = winsAt scores i + (if i = w then 1 else 0) ∧
    gamesAt (bumpScores w n 0 scores) i = gamesAt scores i + (if i < n then 1 else 0) := by
  obtain ⟨sc, hsc⟩ := get?_some_of_lt hi
  unfold winsAt gamesAt
  rw [bumpScores_get? w n 0 scores i, hsc]
  simp only [Option.map_some', Nat.zero_add]
  constructor <;> trivial

/-- C4: when exactly one solvent player remains, the game-over block of
`advance_turn` persists that unique player as the winner — its `wins` and
every slot's `games_played` (for slots below numPlayers) are incremented
by exactly one, along with `total_games`; when instead the solvent count
is not 1 and the post-increment round reached the 50-round cap, the winner
is the slot with the strictly greatest money, ties broken toward the
lowest index.  Scores and `total_games` are touched by no other modelled
operation: any step whose result is not GAME_OVER leaves them unchanged,
so together with C3-terminality the increments happen exactly once per
game.  (The C code performs both updates under `score_mutex`, the lock
dedicated to the score fields; the sequential model does not render the
lock itself.) -/
theorem C4_winner_persisted :
    (∀ s : GameState, s.game_state = GameStatus.PLAYING →
      solventCount s.players = 1 →
      ∃ w, w < s.players.length ∧ bankruptAt s.players w = false ∧
        (∀ j, j < s.players.length → bankruptAt s.players j = false → j = w) ∧
        (advance_turn s).game_state = GameStatus.GAME_OVER ∧
        (advance_turn s).total_games = s.total_games + 1 ∧
        (∀ i, i < s.scores.length →
          winsAt (advance_turn s).scores i = winsAt s.scores i + (if i = w then 1 else 0) ∧
          gamesAt (advance_turn s).scores i
            = gamesAt s.scores i + (if i < s.players.length then 1 else 0))) ∧
    (∀ s : GameState, s.game_state = GameStatus.PLAYING → 0 < s.players.length →
      solventCount s.players ≠ 1 → 50 ≤ (advance_turn s).round →
      ∃ w, w < s.players.length ∧
        (∀ j, j < s.players.length → moneyAt s.players j ≤ moneyAt s.players w) ∧
        (∀ j, j < s.players.length → moneyAt s.players j = moneyAt s.players w → w ≤ j) ∧
        (advance_turn s).game_state = GameStatus.GAME_OVER ∧
        (advance_turn s).total_games = s.total_games + 1 ∧
        (∀ i, i < s.scores.length →
          winsAt (advance_turn s).scores i = winsAt s.scores i + (if i = w then 1 else 0) ∧
          gamesAt (advance_turn s).scores i
            = gamesAt s.scores i + (if i < s.players.length then 1 else 0))) ∧
    (∀ s s' : GameState, GStep s s' → s'.game_state ≠ GameStatus.GAME_OVER →
      s'.scores = s.scores ∧ s'.total_games = s.total_games) := by
  refine ⟨?_, ?_, ?_⟩
  · intro s _hp hsolv
    obtain ⟨w0, hw0, hb0, huniq⟩ := solventCount_one s.players hsolv
    obtain ⟨hlast0, hlastlt, hlastb⟩ := lastSolvent_spec s.players w0 hw0 hb0
    have hcond : (solventCount s.players = 1 ∧ 0 ≤ lastSolvent s.players) ∨
        50 ≤ (if advanceScan s.players s.current_turn 5 = 0 then s.round + 1 else s.round) :=
      Or.inl ⟨hsolv, hlast0⟩
    have hstruct : advance_turn s = { s with
        current_turn := advanceScan s.players s.current_turn 5,
        round := (if advanceScan s.players s.current_turn 5 = 0 then s.round + 1 else s.round),
        game_state := GameStatus.GAME_OVER,
        scores := bumpScores (lastSolvent s.players).toNat s.players.length 0 s.scores,
        total_games := s.total_games + 1 } := by
      simp only [advance_turn]
      rw [if_pos hcond, if_pos ⟨hsolv, hlast0⟩]
    refine ⟨(lastSolvent s.players).toNat, hlastlt, hlastb, ?_, ?_, ?_, ?_⟩
    · intro j hj hjb
      exact (huniq j hj hjb).trans (huniq _ hlastlt hlastb).symm
    · rw [hstruct]
    · rw [hstruct]
    · intro i hi
      rw [hstruct]
      exact bump_wins_games s.scores (lastSolvent s.players).toNat s.players.length i hi
  · intro s _hp hn hsolvne hcap
    rw [advance_turn_round] at hcap
    have hinner : ¬ (solventCount s.players = 1 ∧ 0 ≤ lastSolvent s.players) := by
      intro hpair
      exact hsolvne hpair.1
    have hcond : (solventCount s.players = 1 ∧ 0 ≤ lastSolvent s.players) ∨
        50 ≤ (if advanceScan s.players s.current_turn 5 = 0 then s.round + 1 else s.round) :=
      Or.inr hcap
    have hstruct : advance_turn s = { s with
        current_turn := advanceScan s.players s.current_turn 5,
        round := (if advanceScan s.players s.current_turn 5 = 0 then s.round + 1 else s.round),
        game_state := GameStatus.GAME_OVER,
        scores := bumpScores (richestIdx s.players) s.players.length 0 s.scores,
        total_games := s.total_games + 1 } := by
      simp only [advance_turn]
      rw [if_pos hcond, if_neg hinner]
    obtain ⟨hrlt, hrmax, hrmin⟩ := richestIdx_spec s.players hn
    refine ⟨richestIdx s.players, hrlt, hrmax, hrmin, ?_, ?_, ?_⟩
    · rw [hstruct]
    · rw [hstruct]
    · intro i hi
      rw [hstruct]
      exact bump_wins_games s.scores (richestIdx s.players) s.players.length i hi
  · intro s s' hstep hne
    cases hstep with
    | connect h1 h2 =>
      simp only [connectOp]
      split <;> exact ⟨rfl, rfl⟩
    | disconnect i h1 h2 h3 h4 h5 =>
      exact ⟨rfl, rfl⟩
    | act i pos' money' payee rent h1 h2 h3 h4 h5 h6 =>
      simp only [actOp] at hne ⊢
      obtain ⟨hsc, htg⟩ := advance_turn_scores_of_not_over _ hne
      constructor
      · rw [hsc]
        split <;> rfl
      · rw [htg]
        split <;> rfl
    | skipBankrupt h1 h2 =>
      exact advance_turn_scores_of_not_over s hne

/-- Witness for C4 at `sW4`, a PLAYING state whose sole solvent player is
slot 2. -/
theorem C4_witness :
    ∃ w, w < sW4.players.length ∧ bankruptAt sW4.players w = false ∧
      (∀ j, j < sW4.players.length → bankruptAt sW4.players j = false → j = w) ∧
      (advance_turn sW4).game_state = GameStatus.GAME_OVER ∧
      (advance_turn sW4).total_games = sW4.total_games + 1 ∧
      (∀ i, i < sW4.scores.length →
        winsAt (advance_turn sW4).scores i = winsAt sW4.scores i + (if i = w then 1 else 0) ∧
        gamesAt (advance_turn sW4).scores i
          = gamesAt sW4.scores i + (if i < sW4.players.length then 1 else 0)) :=
  C4_winner_persisted.1 sW4 (by decide) (by decide)

theorem GStep_preserves_active_solvent {s s' : GameState} (hstep : GStep s s')
    (ih : s.active_player_count = (activeSolventCount s.players : Int)) :
    s'.active_player_count = (activeSolventCount s'.players : Int) := by
  cases hstep with
  | connect h1 h2 =>
    have hct : (connectOp s).active_player_count = s.active_player_count + 1 := by
      simp only [connectOp]
      split <;> rfl
    have hpl : (connectOp s).players
        = s.players ++ [{ id := (s.players.length : Int), position := 0, money := 500,
                          is_active := true, is_bankrupt := false }] := by
      simp only [connectOp]
      split <;> rfl
    rw [hct, hpl, ih]
    unfold activeSolventCount
    rw [List.filter_append]
    simp
  | disconnect i h1 h2 h3 h4 h5 =>
    obtain ⟨x, hx⟩ := get?_some_of_lt h1
    have hxa : x.is_active = true := by
      unfold activeAt at h4
      rw [hx] at h4
      exact h4
    have hxb : x.is_bankrupt = false := by
      unfold bankruptAt at h5
      rw [hx] at h5
      exact h5
    have hcnt := filter_modifyAt_count (fun p => p.is_active && !p.is_bankrupt)
      (fun p => { p with is_active := false }) i s.players x hx
    simp [hxa, hxb] at hcnt
    have hc : (disconnectOp s i).active_player_count = s.active_player_count - 1 := rfl
    have hp : (disconnectOp s i).players
        = modifyAt (fun p => { p with is_active := false }) i s.players := rfl
    rw [hc, hp, ih]
    unfold activeSolventCount at *
    omega
  | act i pos' money' payee rent h1 h2 h3 h4 h5 h6 =>
    obtain ⟨x, hx⟩ := get?_some_of_lt h1
    have hxa : x.is_active = true := by
      unfold activeAt at h4
      rw [hx] at h4
      exact h4
    have hxb : x.is_bankrupt = false := by
      unfold bankruptAt at h5
      rw [hx] at h5
      exact h5
    have hc1 : ((modifyAt (fun p : GPlayer => { p with position := pos', money := money' }) i
          s.players).filter (fun p => p.is_active && !p.is_bankrupt)).length
        = (s.players.filter (fun p => p.is_active && !p.is_bankrupt)).length :=
      filter_modifyAt_invariant (fun p : GPlayer => p.is_active && !p.is_bankrupt)
        (fun p : GPlayer => { p with position := pos', money := money' }) (fun y => rfl) i s.players
    unfold activeSolventCount at ih
    cases payee with
    | none =>
      simp only [actOp]
      rw [advance_turn_count, advance_turn_players]
      split
      · next hm =>
        have hgi : (modifyAt (fun p : GPlayer => { p with position := pos', money := money' }) i
            s.players).get? i = some { x with position := pos', money := money' } := by
          rw [modifyAt_get?_self, hx]
          rfl
        have hcnt := filter_modifyAt_count (fun p => p.is_active && !p.is_bankrupt)
          (fun p => { p with is_bankrupt := true }) i _ _ hgi
        simp [hxa, hxb] at hcnt
        dsimp only
        unfold activeSolventCount
        omega
      · dsimp only
        unfold activeSolventCount
        omega
    | some j =>
      unfold payeeOk at h6
      obtain ⟨hjlt, hjne, _hr⟩ := h6
      have hc2 : ((modifyAt (fun p : GPlayer => { p with money := p.money + rent }) j
            (modifyAt (fun p : GPlayer => { p with position := pos', money := money' }) i
              s.players)).filter (fun p => p.is_active && !p.is_bankrupt)).length
          = ((modifyAt (fun p : GPlayer => { p with position := pos', money := money' }) i
              s.players).filter (fun p => p.is_active && !p.is_bankrupt)).length :=
        filter_modifyAt_invariant (fun p : GPlayer => p.is_active && !p.is_bankrupt)
          (fun p : GPlayer => { p with money := p.money + rent }) (fun y => rfl) j _
      simp only [actOp]
      rw [advance_turn_count, advance_turn_players]
      split
      · next hm =>
        have hgi : (modifyAt (fun p : GPlayer => { p with money := p.money + rent }) j
            (modifyAt (fun p : GPlayer => { p with position := pos', money := money' }) i
              s.players)).get? i
            = some { x with position := pos', money := money' } := by
          rw [modifyAt_get?_ne _ j i hjne, modifyAt_get?_self, hx]
          rfl
        have hcnt := filter_modifyAt_count (fun p => p.is_active && !p.is_bankrupt)
          (fun p => { p with is_bankrupt := true }) i _ _ hgi
        simp [hxa, hxb] at hcnt
        dsimp only
        unfold activeSolventCount
        omega
      · dsimp only
        unfold activeSolventCount
        omega
  | skipBankrupt h1 h2 =>
    rw [advance_turn_count, advance_turn_players]
    exact ih

/-- C7 counterexample: `gBadC7` is reachable (three clients join, then the
current player's act drives its money negative, so the bankruptcy check at
src/server.c:209-214 decrements `active_player_count` without clearing
`is_active`), and in it `active_player_count` is 2 while three slots are
still connected and active. -/
theorem C7_counterexample :
    GReachable gBadC7 ∧
    gBadC7.active_player_count ≠ (connectedActiveCount gBadC7.players : Int) := by
  constructor
  · have s1 : GStep initGameState cSt1 := GStep.connect initGameState (by decide) (by decide)
    have s2 : GStep cSt1 cSt2 := GStep.connect cSt1 (by decide) (by decide)
    have s3 : GStep cSt2 cSt3 := GStep.connect cSt2 (by decide) (by decide)
    have s4 : GStep cSt3 gBadC7 :=
      GStep.act cSt3 0 10 (-10) none 0 (by decide) (by decide) (by decide) (by decide)
        (by decide) (by decide)
    exact Relation.ReflTransGen.tail
      (Relation.ReflTransGen.tail
        (Relation.ReflTransGen.tail (Relation.ReflTransGen.single s1) s2) s3) s4
  · decide

/-- C7 (amended): in every state reachable from the initial game state by
the server's connect, disconnect, act and advance-turn operations,
`active_player_count` equals the number of slots that are active (i.e.
connected, in this state's encoding) and not bankrupt — the bankruptcy
path decrements the counter while leaving the slot active, so the counter
tracks active ∧ ¬bankrupt rather than connected ∧ active. -/
theorem C7_active_count_invariant (s : GameState) (h : GReachable s) :
    s.active_player_count = (activeSolventCount s.players : Int) := by
  unfold GReachable at h
  induction h with
  | refl => decide
  | tail hr hstep ih => exact GStep_preserves_active_solvent hstep ih

/-- Witness for C7 at the initial state, reachable by the empty operation
sequence. -/
theorem C7_witness :
    initGameState.active_player_count = (activeSolventCount initGameState.players : Int) :=
  C7_active_count_invariant initGameState Relation.ReflTransGen.refl
